import Mathlib

/-!
Verification of the workflow orchestration engine in `backend/app/agentic`:
a shallow embedding of the graph executor (`engine/executor.py`), the node
run wrapper (`nodes/base.py`) and the scheduler / job queue
(`engine/scheduler.py`), with theorems checking the specification's claims
against the embedded code.

Node outputs in the source are JSON dictionaries; they are embedded as
association lists `List (String × V)` over an arbitrary value type `V`,
with Python-dict insertion semantics.  Database writes in the source
(SQLAlchemy `db.add` / `db.commit`) are embedded as pure state updates:
the embedding corresponds to runs in which every persistence write
succeeds.  Wall-clock readings (`datetime.utcnow`, `time.time`) are passed
in as explicit parameters.
-/

namespace AgenticEngine

/-- A JSON-object value: insertion-ordered association list, as a Python
dict with string keys. -/
abbrev StrMap (V : Type) := List (String × V)

/-- Python dict assignment `d[k] = v`: replaces the value in place when the
key is already present (keeping its position), appends otherwise. -/
def dictInsert {V : Type} (d : StrMap V) (k : String) (v : V) : StrMap V :=
  if d.any (fun p => p.1 == k) then
    d.map (fun p => if p.1 == k then (k, v) else p)
  else d ++ [(k, v)]

/-- The keys of a `StrMap`. -/
def dictKeys {V : Type} (d : StrMap V) : List String := d.map Prod.fst

/-! ## Node contract (`app/agentic/nodes/base.py`) -/

/-- The structured result dictionary `BaseNode.run` returns:
`{success, output, error, execution_time_ms}`. -/
structure RunResult (V : Type) where
  success : Bool
  output : StrMap V
  error : Option String
  execution_time_ms : Nat
  deriving Repr, DecidableEq

/-- `BaseNode.run` (nodes/base.py lines 31-63): calls `self.execute` inside
`try/except`; a normal return yields `{success: True, output, error: None}`,
a raised exception `e` yields `{success: False, output: {}, error: str(e)}`.
`execute` is embedded as a fallible function (`Except` models the raise),
and the measured elapsed milliseconds as the parameter `elapsed_ms`. -/
def BaseNode.run {V : Type} (execute : Option (StrMap V) → Except String (StrMap V))
    (input_data : Option (StrMap V)) (elapsed_ms : Nat) : RunResult V :=
  match execute input_data with
  | .ok output =>
      { success := true, output := output, error := none, execution_time_ms := elapsed_ms }
  | .error e =>
      { success := false, output := [], error := some e, execution_time_ms := elapsed_ms }

/-! ## Graph executor (`app/agentic/engine/executor.py`) -/

/-- A workflow node configuration entry (`node_config['id']`,
`node_config['type']`); the `data` payload is opaque to the executor's
control flow and omitted here. -/
structure NodeConfig where
  id : String
  type : String
  deriving Repr, DecidableEq

/-- A workflow connection (edge) as stored in `Workflow.connections`
(schemas.py `NodeConnection`): source/target node ids with optional
handles. -/
structure NodeConnection where
  source : String
  target : String
  sourceHandle : Option String := none
  targetHandle : Option String := none
  deriving Repr, DecidableEq

/-- The keys of `NODE_REGISTRY` (executor.py lines 48-104). -/
def NODE_REGISTRY_KEYS : List String :=
  ["GetLivePrice", "GetAccountInfo",
   "MarketOrder", "ClosePosition",
   "IfElse", "Compare",
   "DashboardNotification",
   "SetState", "GetState",
   "NewsFetch", "SentimentAnalysis",
   "RSI", "MACD", "MovingAverage", "BollingerBands", "ATR",
   "PositionSizer", "RiskRewardCalculator", "DrawdownMonitor",
   "DailyLossLimit", "MaxPositions", "SmartRiskManager",
   "Ollama", "Groq", "HuggingFace", "OpenAI", "OpenRouter",
   "AITradingAnalyst", "CustomAgent", "AIDecision",
   "ScheduleTrigger", "PriceTrigger", "IndicatorTrigger",
   "TimeTrigger", "WebhookTrigger", "ManualTrigger"]

/-- Status of a `NodeExecutionLog` row (models.py line 61). -/
inductive LogStatus
  | running | completed | failed | skipped
  deriving Repr, DecidableEq

/-- Status of a `WorkflowExecution` row (models.py line 39). -/
inductive ExecStatus
  | running | completed | failed | stopped
  deriving Repr, DecidableEq

/-- A `NodeExecutionLog` row as the executor finalizes it (executor.py
lines 212-230).  The source stores `input_data or {}`, so a `None` input is
recorded as the empty dict. -/
structure NodeExecutionLog (V : Type) where
  node_id : String
  node_type : String
  status : LogStatus
  input_data : StrMap V
  output_data : StrMap V
  error_message : Option String
  execution_time_ms : Option Nat
  deriving Repr, DecidableEq

/-- The executor's mutable state: `self.node_outputs` plus the node log
rows written so far. -/
structure ExecState (V : Type) where
  node_outputs : StrMap (StrMap V)
  logs : List (NodeExecutionLog V)
  deriving Repr, DecidableEq

namespace WorkflowExecutor

/-- `WorkflowExecutor._get_node_inputs` (executor.py lines 245-252):
returns the LAST value of the `node_outputs` dict (the most recently
stored successful output), or `None` when no output is stored.  The
declared edges are not consulted. -/
def get_node_inputs {V : Type} (node_outputs : StrMap (StrMap V)) : Option (StrMap V) :=
  node_outputs.getLast?.map Prod.snd

/-- `WorkflowExecutor._build_execution_order` (executor.py lines 174-181):
returns the nodes array unchanged; the connections are ignored and no
cycle detection or topological sort is performed. -/
def build_execution_order (nodes : List NodeConfig)
    (connections : List NodeConnection) : List NodeConfig :=
  nodes

/-- `WorkflowExecutor._execute_node` (executor.py lines 183-243).
`runNode` is the node-behaviour collaborator: instantiating the registered
node class and calling its `run` wrapper (which, per `BaseNode.run`, always
returns a structured `RunResult` rather than raising).  An unknown node
type raises before any log row is created; otherwise a log row is created
and finalized with the run's status/output/error/timing, and the output of
a successful run is stored in `node_outputs`. -/
def execute_node {V : Type} (runNode : NodeConfig → Option (StrMap V) → RunResult V)
    (st : ExecState V) (node_config : NodeConfig) : Except String (ExecState V) :=
  if NODE_REGISTRY_KEYS.contains node_config.type then
    let input_data := get_node_inputs st.node_outputs
    let result := runNode node_config input_data
    let log : NodeExecutionLog V :=
      { node_id := node_config.id
        node_type := node_config.type
        status := if result.success then .completed else .failed
        input_data := input_data.getD []
        output_data := result.output
        error_message := result.error
        execution_time_ms := some result.execution_time_ms }
    .ok { node_outputs :=
            if result.success then dictInsert st.node_outputs node_config.id result.output
            else st.node_outputs
          logs := st.logs ++ [log] }
  else
    .error ("Unknown node type: " ++ node_config.type)

/-- The executor's node loop (executor.py lines 149-150): execute the nodes
in order, stopping at the first infrastructure error and reporting it
together with the state accumulated so far. -/
def run_nodes {V : Type} (runNode : NodeConfig → Option (StrMap V) → RunResult V) :
    List NodeConfig → ExecState V → ExecState V × Option String
  | [], st => (st, none)
  | n :: ns, st =>
    match execute_node runNode st n with
    | .ok st2 => run_nodes runNode ns st2
    | .error e => (st, some e)

/-- The observable outcome of `WorkflowExecutor.execute`: the final
`WorkflowExecution` fields together with the node log rows created. -/
structure ExecutionOutcome (V : Type) where
  status : ExecStatus
  execution_data : StrMap (StrMap V)
  error_message : Option String
  logs : List (NodeExecutionLog V)
  deriving Repr, DecidableEq

/-- `WorkflowExecutor.execute` (executor.py lines 116-172): builds the
execution order, runs every node in it, and finalizes the execution record:
`completed` with `execution_data = node_outputs` when the loop raised
nothing, `failed` with the error message (and the outputs accumulated so
far) when it raised. -/
def execute {V : Type} (runNode : NodeConfig → Option (StrMap V) → RunResult V)
    (nodes : List NodeConfig) (connections : List NodeConnection) : ExecutionOutcome V :=
  let execution_order := build_execution_order nodes connections
  match run_nodes runNode execution_order ⟨[], []⟩ with
  | (st, none) =>
      { status := .completed, execution_data := st.node_outputs
        error_message := none, logs := st.logs }
  | (st, some e) =>
      { status := .failed, execution_data := st.node_outputs
        error_message := some e, logs := st.logs }

end WorkflowExecutor

/-! ## Concrete workflows used to evaluate the executor -/

/-- A two-node workflow whose edges form a cycle A → B → A. -/
def cyclicNodes : List NodeConfig :=
  [{ id := "A", type := "Compare" }, { id := "B", type := "Compare" }]

/-- The cyclic edge set A → B → A. -/
def cyclicConnections : List NodeConnection :=
  [{ source := "A", target := "B" }, { source := "B", target := "A" }]

/-- A node behaviour in which every node succeeds with output
`{"value": 1}` in 5 ms. -/
def allSucceed : NodeConfig → Option (StrMap Nat) → RunResult Nat :=
  fun _ _ => { success := true, output := [("value", 1)], error := none, execution_time_ms := 5 }

/-- A node behaviour in which node A succeeds with output `{"price": 42}`
and every other node succeeds with output `{"done": 1}`. -/
def aProducesPrice : NodeConfig → Option (StrMap Nat) → RunResult Nat :=
  fun cfg _ =>
    if cfg.id == "A" then
      { success := true, output := [("price", 42)], error := none, execution_time_ms := 3 }
    else
      { success := true, output := [("done", 1)], error := none, execution_time_ms := 3 }

/-- A node behaviour in which node A fails (`success = False`, as
`BaseNode.run` reports a raised exception) and every other node
succeeds. -/
def aFails : NodeConfig → Option (StrMap Nat) → RunResult Nat :=
  fun cfg _ =>
    if cfg.id == "A" then
      { success := false, output := [], error := some "boom", execution_time_ms := 2 }
    else
      { success := true, output := [("ok", 1)], error := none, execution_time_ms := 2 }

/-- Two nodes A, B with a single edge A → B. -/
def chainNodes : List NodeConfig :=
  [{ id := "A", type := "Compare" }, { id := "B", type := "Compare" }]

/-- The single edge A → B. -/
def chainConnections : List NodeConnection :=
  [{ source := "A", target := "B" }]

/-- C1: the spec claims a workflow whose edges form a cycle always yields
`WorkflowExecution.status = failed` with zero node logs created.  The
embedded executor, run on the cyclic workflow A → B → A, instead completes
and creates a log row for each of the two nodes: `_build_execution_order`
never inspects the connections, so no cycle is ever detected. -/
theorem cyclic_workflow_completes_with_logs :
    (WorkflowExecutor.execute allSucceed cyclicNodes cyclicConnections).status
        = ExecStatus.completed
      ∧ (WorkflowExecutor.execute allSucceed cyclicNodes cyclicConnections).logs.map
            (fun l => l.status) = [LogStatus.completed, LogStatus.completed] := by
  constructor <;> rfl

/-- C2: the spec claims a node with no incoming edges receives null/empty
input.  In the embedded executor, run on nodes `[A, B]` with NO connections
at all, node B nevertheless receives node A's output `{"price": 42}` as its
input: `_get_node_inputs` ignores the edges and always hands over the most
recent successful output. -/
theorem edgeless_node_receives_previous_output :
    (WorkflowExecutor.execute aProducesPrice chainNodes []).logs.map
        (fun l => l.input_data) = [[], [("price", 42)]] := by
  rfl

/-- C3: the spec claims that when node X fails, every node reachable from X
only through failed paths is never invoked and is logged as `skipped`.  In
the embedded executor, run on A → B where A fails, node B is still invoked
and its log status is `completed`, not `skipped`: the executor has no skip
propagation. -/
theorem downstream_of_failed_node_still_executes :
    (WorkflowExecutor.execute aFails chainNodes chainConnections).logs.map
        (fun l => (l.node_id, l.status))
      = [("A", LogStatus.failed), ("B", LogStatus.completed)] := by
  rfl

/-! ## General lemmas about the executor loop -/

/-- The log entries whose final status is `completed` (their node's `run`
returned `success = True`). -/
def completedEntry {V : Type} (l : NodeExecutionLog V) : Bool :=
  l.status == LogStatus.completed

/-- The `(node_id, output_data)` pair a log row contributes. -/
def logEntryPair {V : Type} (l : NodeExecutionLog V) : String × StrMap V :=
  (l.node_id, l.output_data)

theorem dictKeys_append {V : Type} (a b : StrMap V) :
    dictKeys (a ++ b) = dictKeys a ++ dictKeys b := by
  simp [dictKeys]

theorem dictInsert_of_not_mem {V : Type} (d : StrMap V) (k : String) (v : V)
    (h : k ∉ dictKeys d) : dictInsert d k v = d ++ [(k, v)] := by
  unfold dictInsert
  rw [if_neg]
  intro hany
  rw [List.any_eq_true] at hany
  obtain ⟨p, hp, he⟩ := hany
  exact h (by
    rw [beq_iff_eq] at he
    exact he ▸ List.mem_map.mpr ⟨p, hp, rfl⟩)

/-- Unfolding of `_execute_node` at a node whose type is registered. -/
theorem execute_node_of_contains {V : Type}
    (runNode : NodeConfig → Option (StrMap V) → RunResult V)
    (st : ExecState V) (n : NodeConfig)
    (hc : NODE_REGISTRY_KEYS.contains n.type = true) :
    WorkflowExecutor.execute_node runNode st n = .ok
      { node_outputs :=
          if (runNode n (WorkflowExecutor.get_node_inputs st.node_outputs)).success then
            dictInsert st.node_outputs n.id
              (runNode n (WorkflowExecutor.get_node_inputs st.node_outputs)).output
          else st.node_outputs
        logs := st.logs ++
          [{ node_id := n.id
             node_type := n.type
             status :=
               if (runNode n (WorkflowExecutor.get_node_inputs st.node_outputs)).success then
                 .completed
               else .failed
             input_data := (WorkflowExecutor.get_node_inputs st.node_outputs).getD []
             output_data := (runNode n (WorkflowExecutor.get_node_inputs st.node_outputs)).output
             error_message := (runNode n (WorkflowExecutor.get_node_inputs st.node_outputs)).error
             execution_time_ms :=
               some (runNode n
                 (WorkflowExecutor.get_node_inputs st.node_outputs)).execution_time_ms }] } := by
  have hmem : n.type ∈ NODE_REGISTRY_KEYS := by simpa using hc
  simp [WorkflowExecutor.execute_node, hmem]

/-- When every node type is registered, the executor loop raises no
infrastructure error and maintains the invariant that `node_outputs` is the
dict-fold of the completed log rows. -/
theorem run_nodes_no_error_fold {V : Type}
    (runNode : NodeConfig → Option (StrMap V) → RunResult V) (ns : List NodeConfig) :
    ∀ st : ExecState V,
      (∀ c ∈ ns, NODE_REGISTRY_KEYS.contains c.type = true) →
      st.node_outputs = (st.logs.filter completedEntry).foldl
          (fun d l => dictInsert d l.node_id l.output_data) [] →
      (WorkflowExecutor.run_nodes runNode ns st).2 = none
      ∧ (WorkflowExecutor.run_nodes runNode ns st).1.node_outputs
          = ((WorkflowExecutor.run_nodes runNode ns st).1.logs.filter completedEntry).foldl
              (fun d l => dictInsert d l.node_id l.output_data) [] := by
  induction ns with
  | nil =>
    intro st _ hinv
    exact ⟨rfl, hinv⟩
  | cons n ns ih =>
    intro st hreg hinv
    have hc : NODE_REGISTRY_KEYS.contains n.type = true := hreg n (by simp)
    rw [show WorkflowExecutor.run_nodes runNode (n :: ns) st
        = match WorkflowExecutor.execute_node runNode st n with
          | .ok st2 => WorkflowExecutor.run_nodes runNode ns st2
          | .error e => (st, some e) from rfl,
      execute_node_of_contains runNode st n hc]
    apply ih
    · exact fun c hcmem => hreg c (List.mem_cons_of_mem n hcmem)
    · by_cases hs : (runNode n (WorkflowExecutor.get_node_inputs st.node_outputs)).success
      · simp only [hs, if_true, List.filter_append, List.foldl_append, completedEntry]
        simp [hinv, completedEntry]
      · simp only [Bool.not_eq_true] at hs
        simp only [hs, Bool.false_eq_true, if_false, List.filter_append, List.foldl_append,
          completedEntry]
        simp [hinv, completedEntry, hs]

/-- C8: when every node's type is found in the registry (and, as the
embedding assumes throughout, every persistence write succeeds), the final
`WorkflowExecution.status` is `completed` even when individual node runs
failed, and `execution_data` is exactly the node-id → output dict
accumulated from the log rows whose run returned `success = True` (every
completed, i.e. non-failed non-skipped, node). -/
theorem execution_completed_despite_node_failures {V : Type}
    (runNode : NodeConfig → Option (StrMap V) → RunResult V)
    (nodes : List NodeConfig) (connections : List NodeConnection)
    (hreg : ∀ c ∈ nodes, NODE_REGISTRY_KEYS.contains c.type = true) :
    (WorkflowExecutor.execute runNode nodes connections).status = ExecStatus.completed
    ∧ (WorkflowExecutor.execute runNode nodes connections).execution_data
        = ((WorkflowExecutor.execute runNode nodes connections).logs.filter
            completedEntry).foldl (fun d l => dictInsert d l.node_id l.output_data) [] := by
  have h := run_nodes_no_error_fold runNode nodes ⟨[], []⟩ hreg (by simp)
  unfold WorkflowExecutor.execute WorkflowExecutor.build_execution_order
  obtain ⟨h1, h2⟩ := h
  rcases hx : WorkflowExecutor.run_nodes runNode nodes ⟨[], []⟩ with ⟨st, err⟩
  rw [hx] at h1 h2
  simp only at h1 h2
  subst h1
  refine ⟨by simp [hx], ?_⟩
  simpa [hx] using h2

/-- Witness for C8 at a concrete input: the chain A → B where node A fails
and node B succeeds still yields a completed execution whose
`execution_data` holds exactly B's output. -/
theorem execution_completed_despite_node_failures_witness :
    (WorkflowExecutor.execute aFails chainNodes chainConnections).status
        = ExecStatus.completed
    ∧ (WorkflowExecutor.execute aFails chainNodes chainConnections).execution_data
        = ((WorkflowExecutor.execute aFails chainNodes chainConnections).logs.filter
            completedEntry).foldl (fun d l => dictInsert d l.node_id l.output_data) [] :=
  execution_completed_despite_node_failures aFails chainNodes chainConnections (by decide)

/-- The executor loop processes an appended node list by processing the
first part and continuing from its final state, provided the first part
raised no error. -/
theorem run_nodes_append {V : Type}
    (runNode : NodeConfig → Option (StrMap V) → RunResult V) (ns1 ns2 : List NodeConfig) :
    ∀ st : ExecState V, (WorkflowExecutor.run_nodes runNode ns1 st).2 = none →
      WorkflowExecutor.run_nodes runNode (ns1 ++ ns2) st
        = WorkflowExecutor.run_nodes runNode ns2 (WorkflowExecutor.run_nodes runNode ns1 st).1 := by
  induction ns1 with
  | nil =>
    intro st _
    rfl
  | cons n ns ih =>
    intro st h
    rw [List.cons_append]
    rw [show WorkflowExecutor.run_nodes runNode (n :: (ns ++ ns2)) st
        = match WorkflowExecutor.execute_node runNode st n with
          | .ok st2 => WorkflowExecutor.run_nodes runNode (ns ++ ns2) st2
          | .error e => (st, some e) from rfl]
    rw [show WorkflowExecutor.run_nodes runNode (n :: ns) st
        = match WorkflowExecutor.execute_node runNode st n with
          | .ok st2 => WorkflowExecutor.run_nodes runNode ns st2
          | .error e => (st, some e) from rfl] at h ⊢
    cases hx : WorkflowExecutor.execute_node runNode st n with
    | ok st2 =>
      rw [hx] at h
      simp only [hx]
      exact ih st2 h
    | error e =>
      rw [hx] at h
      simp at h

/-- Every pass of the executor loop only appends log rows. -/
theorem run_nodes_logs_extend {V : Type}
    (runNode : NodeConfig → Option (StrMap V) → RunResult V) (ns : List NodeConfig) :
    ∀ st : ExecState V, st.logs <+: (WorkflowExecutor.run_nodes runNode ns st).1.logs := by
  induction ns with
  | nil =>
    intro st
    exact List.prefix_rfl
  | cons n ns ih =>
    intro st
    rw [show WorkflowExecutor.run_nodes runNode (n :: ns) st
        = match WorkflowExecutor.execute_node runNode st n with
          | .ok st2 => WorkflowExecutor.run_nodes runNode ns st2
          | .error e => (st, some e) from rfl]
    cases hx : WorkflowExecutor.execute_node runNode st n with
    | ok st2 =>
      have h12 : st.logs <+: st2.logs := by
        unfold WorkflowExecutor.execute_node at hx
        split at hx
        · obtain rfl : _ = st2 := by injection hx
          exact ⟨_, rfl⟩
        · exact Except.noConfusion hx
      exact h12.trans (ih st2)
    | error e =>
      exact List.prefix_rfl

/-- When every node type is registered, the node ids are pairwise distinct
and none of them already has a stored output, the executor loop keeps
`node_outputs` equal to the `(node_id, output_data)` pairs of the completed
log rows in order, and appends exactly one log row per node, carrying that
node's id. -/
theorem run_nodes_nodup_invariant {V : Type}
    (runNode : NodeConfig → Option (StrMap V) → RunResult V) (ns : List NodeConfig) :
    ∀ st : ExecState V,
      (∀ c ∈ ns, NODE_REGISTRY_KEYS.contains c.type = true) →
      (∀ c ∈ ns, c.id ∉ dictKeys st.node_outputs) →
      (ns.map NodeConfig.id).Nodup →
      st.node_outputs = (st.logs.filter completedEntry).map logEntryPair →
      (WorkflowExecutor.run_nodes runNode ns st).1.node_outputs
          = (((WorkflowExecutor.run_nodes runNode ns st).1.logs.filter
              completedEntry).map logEntryPair)
      ∧ (WorkflowExecutor.run_nodes runNode ns st).1.logs.map (fun l => l.node_id)
          = st.logs.map (fun l => l.node_id) ++ ns.map NodeConfig.id := by
  induction ns with
  | nil =>
    intro st _ _ _ hinv
    exact ⟨hinv, by simp [WorkflowExecutor.run_nodes]⟩
  | cons n ns ih =>
    intro st hreg hfresh hnodup hinv
    have hc : NODE_REGISTRY_KEYS.contains n.type = true := hreg n (by simp)
    rw [show WorkflowExecutor.run_nodes runNode (n :: ns) st
        = match WorkflowExecutor.execute_node runNode st n with
          | .ok st2 => WorkflowExecutor.run_nodes runNode ns st2
          | .error e => (st, some e) from rfl,
      execute_node_of_contains runNode st n hc]
    simp only [List.nodup_cons, List.map_cons] at hnodup
    by_cases hs : (runNode n (WorkflowExecutor.get_node_inputs st.node_outputs)).success
    · simp only [hs, if_true]
      have hins : dictInsert st.node_outputs n.id
          (runNode n (WorkflowExecutor.get_node_inputs st.node_outputs)).output
          = st.node_outputs ++
            [(n.id, (runNode n (WorkflowExecutor.get_node_inputs st.node_outputs)).output)] :=
        dictInsert_of_not_mem _ _ _ (hfresh n (by simp))
      have h := ih
        { node_outputs := st.node_outputs ++
            [(n.id, (runNode n (WorkflowExecutor.get_node_inputs st.node_outputs)).output)]
          logs := st.logs ++
            [{ node_id := n.id
               node_type := n.type
               status := .completed
               input_data := (WorkflowExecutor.get_node_inputs st.node_outputs).getD []
               output_data :=
                 (runNode n (WorkflowExecutor.get_node_inputs st.node_outputs)).output
               error_message :=
                 (runNode n (WorkflowExecutor.get_node_inputs st.node_outputs)).error
               execution_time_ms :=
                 some (runNode n
                   (WorkflowExecutor.get_node_inputs st.node_outputs)).execution_time_ms }] }
        (fun c hcmem => hreg c (List.mem_cons_of_mem n hcmem))
        (by
          intro c hcmem
          rw [dictKeys_append]
          simp only [List.mem_append]
          rintro (hmem | hmem)
          · exact hfresh c (List.mem_cons_of_mem n hcmem) hmem
          · simp only [dictKeys, List.map_cons, List.map_nil, List.mem_cons,
              List.not_mem_nil, or_false] at hmem
            exact hnodup.1 (hmem ▸ List.mem_map_of_mem NodeConfig.id hcmem))
        hnodup.2
        (by
          simp only [List.filter_append, List.map_append]
          rw [← hinv]
          simp [completedEntry, logEntryPair])
      refine ⟨?_, ?_⟩
      · have := h.1
        rw [hins]
        convert this using 3
      · have := h.2
        rw [hins]
        rw [show (st.logs ++ _ : List (NodeExecutionLog V)).map (fun l => l.node_id)
            = st.logs.map (fun l => l.node_id) ++ [n.id] from by simp] at this
        rw [this]
        simp
    · simp only [Bool.not_eq_true] at hs
      simp only [hs, Bool.false_eq_true, if_false]
      have h := ih
        { node_outputs := st.node_outputs
          logs := st.logs ++
            [{ node_id := n.id
               node_type := n.type
               status := .failed
               input_data := (WorkflowExecutor.get_node_inputs st.node_outputs).getD []
               output_data :=
                 (runNode n (WorkflowExecutor.get_node_inputs st.node_outputs)).output
               error_message :=
                 (runNode n (WorkflowExecutor.get_node_inputs st.node_outputs)).error
               execution_time_ms :=
                 some (runNode n
                   (WorkflowExecutor.get_node_inputs st.node_outputs)).execution_time_ms }] }
        (fun c hcmem => hreg c (List.mem_cons_of_mem n hcmem))
        (fun c hcmem => hfresh c (List.mem_cons_of_mem n hcmem))
        hnodup.2
        (by
          simp only [List.filter_append, List.map_append]
          rw [← hinv]
          simp [completedEntry, logEntryPair])
      refine ⟨h.1, ?_⟩
      have := h.2
      rw [show (st.logs ++ _ : List (NodeExecutionLog V)).map (fun l => l.node_id)
          = st.logs.map (fun l => l.node_id) ++ [n.id] from by simp] at this
      rw [this]
      simp

/-- `_get_node_inputs` applied to a `node_outputs` dict that mirrors the
completed log rows returns the most recent completed row's output. -/
theorem get_node_inputs_completed_map {V : Type} (logs : List (NodeExecutionLog V)) :
    WorkflowExecutor.get_node_inputs ((logs.filter completedEntry).map logEntryPair)
      = ((logs.filter completedEntry).getLast?).map (fun l => l.output_data) := by
  unfold WorkflowExecutor.get_node_inputs
  rw [List.getLast?_map]
  cases (logs.filter completedEntry).getLast? <;> simp [logEntryPair]

/-- C10: in an execution whose node types are all registered and whose node
ids are distinct, a node whose run returned `success = False` contributes
nothing to `execution_data`, and the input the executor computes for the
next node (the state after the first `i` nodes) is the output of the most
recent node that succeeded — or `none` when no node has succeeded yet.  A
failed node's empty failure output is therefore never fed downstream. -/
theorem failed_node_output_never_fed_downstream {V : Type}
    (runNode : NodeConfig → Option (StrMap V) → RunResult V)
    (nodes : List NodeConfig) (connections : List NodeConnection)
    (hreg : ∀ c ∈ nodes, NODE_REGISTRY_KEYS.contains c.type = true)
    (hids : (nodes.map NodeConfig.id).Nodup) :
    (∀ l ∈ (WorkflowExecutor.execute runNode nodes connections).logs,
        l.status = LogStatus.failed →
        l.node_id ∉ dictKeys (WorkflowExecutor.execute runNode nodes connections).execution_data)
    ∧ (∀ i : Nat,
        WorkflowExecutor.get_node_inputs
            ((WorkflowExecutor.run_nodes runNode (nodes.take i)
                (⟨[], []⟩ : ExecState V)).1.node_outputs)
          = ((((WorkflowExecutor.execute runNode nodes connections).logs.take i).filter
                completedEntry).getLast?).map (fun l => l.output_data)) := by
  have h0 := (run_nodes_no_error_fold runNode nodes (⟨[], []⟩ : ExecState V) hreg (by simp)).1
  have hm := run_nodes_nodup_invariant runNode nodes ⟨[], []⟩ hreg
    (by simp [dictKeys]) hids (by simp)
  obtain ⟨hout, hlogids⟩ := hm
  simp only [List.map_nil, List.nil_append] at hlogids
  have hexec : WorkflowExecutor.execute runNode nodes connections
      = { status := .completed
          execution_data :=
            (WorkflowExecutor.run_nodes runNode nodes (⟨[], []⟩ : ExecState V)).1.node_outputs
          error_message := none
          logs := (WorkflowExecutor.run_nodes runNode nodes (⟨[], []⟩ : ExecState V)).1.logs } := by
    unfold WorkflowExecutor.execute WorkflowExecutor.build_execution_order
    rcases hx : WorkflowExecutor.run_nodes runNode nodes ⟨[], []⟩ with ⟨st, err⟩
    rw [hx] at h0
    simp only at h0
    subst h0
    simp [hx]
  rw [hexec]
  dsimp only
  constructor
  · intro l hl hfail hmem
    rw [hout] at hmem
    simp only [dictKeys, List.map_map, List.mem_map, Function.comp, logEntryPair,
      List.mem_filter] at hmem
    obtain ⟨l2, ⟨hl2, hl2c⟩, hl2id⟩ := hmem
    have hnodupF :
        ((WorkflowExecutor.run_nodes runNode nodes
          (⟨[], []⟩ : ExecState V)).1.logs.map (fun l => l.node_id)).Nodup := by
      rw [hlogids]; exact hids
    have heq : l2 = l := List.inj_on_of_nodup_map hnodupF hl2 hl hl2id
    rw [heq, completedEntry, hfail] at hl2c
    simp at hl2c
  · intro i
    rcases le_or_lt i nodes.length with hle | hlt
    · have hregT : ∀ c ∈ nodes.take i, NODE_REGISTRY_KEYS.contains c.type = true :=
        fun c hc => hreg c (List.take_subset i nodes hc)
      have hnodT : ((nodes.take i).map NodeConfig.id).Nodup := by
        rw [List.map_take]; exact (List.take_sublist i _).nodup hids
      have hp := run_nodes_nodup_invariant runNode (nodes.take i) ⟨[], []⟩ hregT
        (by simp [dictKeys]) hnodT (by simp)
      obtain ⟨hpout, hplogids⟩ := hp
      simp only [List.map_nil, List.nil_append] at hplogids
      have hp0 := (run_nodes_no_error_fold runNode (nodes.take i)
        (⟨[], []⟩ : ExecState V) hregT (by simp)).1
      have happ := run_nodes_append runNode (nodes.take i) (nodes.drop i) ⟨[], []⟩ hp0
      rw [List.take_append_drop] at happ
      obtain ⟨L, hL⟩ := run_nodes_logs_extend runNode (nodes.drop i)
        (WorkflowExecutor.run_nodes runNode (nodes.take i) (⟨[], []⟩ : ExecState V)).1
      rw [← happ] at hL
      have hlen : (WorkflowExecutor.run_nodes runNode (nodes.take i)
          (⟨[], []⟩ : ExecState V)).1.logs.length = i := by
        have hlm := congrArg List.length hplogids
        simpa [Nat.min_eq_left hle] using hlm
      have htake : (WorkflowExecutor.run_nodes runNode nodes
          (⟨[], []⟩ : ExecState V)).1.logs.take i
          = (WorkflowExecutor.run_nodes runNode (nodes.take i)
              (⟨[], []⟩ : ExecState V)).1.logs := by
        rw [← hL]; exact List.take_left' hlen
      rw [htake, hpout, get_node_inputs_completed_map]
    · have htakeN : nodes.take i = nodes := List.take_of_length_le (le_of_lt hlt)
      have hlenF : (WorkflowExecutor.run_nodes runNode nodes
          (⟨[], []⟩ : ExecState V)).1.logs.length = nodes.length := by
        have hlm := congrArg List.length hlogids
        simpa using hlm
      have htakeL : (WorkflowExecutor.run_nodes runNode nodes
          (⟨[], []⟩ : ExecState V)).1.logs.take i
          = (WorkflowExecutor.run_nodes runNode nodes (⟨[], []⟩ : ExecState V)).1.logs :=
        List.take_of_length_le (by rw [hlenF]; exact le_of_lt hlt)
      rw [htakeN, htakeL, hout, get_node_inputs_completed_map]

/-- A workflow in which the node id A occurs twice. -/
def dupNodes : List NodeConfig :=
  [{ id := "A", type := "Compare" }, { id := "B", type := "Compare" },
   { id := "A", type := "Compare" }, { id := "C", type := "Compare" }]

/-- Every node succeeds: B outputs `{"b": 2}` and every other node
outputs `{"a": 1}`. -/
def dupBehaviour : NodeConfig → Option (StrMap Nat) → RunResult Nat :=
  fun cfg _ =>
    if cfg.id == "B" then
      { success := true, output := [("b", 2)], error := none, execution_time_ms := 1 }
    else
      { success := true, output := [("a", 1)], error := none, execution_time_ms := 1 }

/-- C10, counterexample to the claim exactly as stated: when a node id
repeats, the next node does NOT receive the output of the most recent node
that succeeded.  On `[A, B, A, C]` (all succeeding), the second success of
A re-assigns the dict key `A` in place, so the last dict value stays B's
output: node C receives `{"b": 2}` although the most recent succeeded node
(the second A, log index 2) output `{"a": 1}`. -/
theorem duplicate_ids_input_not_last_success :
    ((WorkflowExecutor.execute dupBehaviour dupNodes []).logs.map (fun l => l.input_data))
        = [[], [("a", 1)], [("b", 2)], [("b", 2)]]
    ∧ ((((WorkflowExecutor.execute dupBehaviour dupNodes []).logs.take 3).filter
          completedEntry).getLast?).map (fun l => l.output_data) = some [("a", 1)] := by
  constructor <;> rfl

/-- Witness for C10 at a concrete input: the chain A → B where A fails. -/
theorem failed_node_output_never_fed_downstream_witness :
    (∀ l ∈ (WorkflowExecutor.execute aFails chainNodes chainConnections).logs,
        l.status = LogStatus.failed →
        l.node_id ∉ dictKeys (WorkflowExecutor.execute aFails chainNodes
          chainConnections).execution_data)
    ∧ (∀ i : Nat,
        WorkflowExecutor.get_node_inputs
            ((WorkflowExecutor.run_nodes aFails (chainNodes.take i)
                (⟨[], []⟩ : ExecState Nat)).1.node_outputs)
          = ((((WorkflowExecutor.execute aFails chainNodes chainConnections).logs.take
                i).filter completedEntry).getLast?).map (fun l => l.output_data)) :=
  failed_node_output_never_fed_downstream aFails chainNodes chainConnections
    (by decide) (by decide)

/-- C7: `BaseNode.run` never raises: for every node `execute` behaviour and
every input map, a normal return `o` yields
`{success: true, output: o, error: null, execution_time_ms: t}` and a
raised exception `e` yields
`{success: false, output: {}, error: str(e), execution_time_ms: t}` — the
run wrapper is a total function into structured results, so node-level
exceptions never propagate out of it. -/
theorem run_never_raises {V : Type}
    (execute : Option (StrMap V) → Except String (StrMap V))
    (input_data : Option (StrMap V)) (elapsed_ms : Nat) :
    (∀ o, execute input_data = .ok o →
        BaseNode.run execute input_data elapsed_ms
          = { success := true, output := o, error := none, execution_time_ms := elapsed_ms })
    ∧ (∀ e, execute input_data = .error e →
        BaseNode.run execute input_data elapsed_ms
          = { success := false, output := [], error := some e,
              execution_time_ms := elapsed_ms }) := by
  constructor <;> intro x hx <;> simp [BaseNode.run, hx]

/-! ## Job queue and scheduler (`app/agentic/engine/scheduler.py`) -/

/-- Status of a `JobQueue` row (models.py line 99). -/
inductive QueueStatus
  | pending | running | completed | failed | cancelled
  deriving Repr, DecidableEq

/-- A `JobQueue` row with the fields `queue_job` reads and writes.  The
model defaults mirror models.py: `retry_count = 0`, `max_retries = 3`. -/
structure JobQueueEntry where
  id : Nat
  workflow_id : Nat
  user_id : Nat
  status : QueueStatus
  priority : Int := 0
  retry_count : Nat := 0
  max_retries : Nat := 3
  error_message : Option String := none
  scheduled_at : Option Nat := none
  deriving Repr, DecidableEq

/-- A `ScheduledJob` row with the fields the scheduler reads and writes;
`trigger_config` is a string-to-string JSON object, wall-clock values are
seconds since an epoch midnight. -/
structure ScheduledJobRow where
  workflow_id : Nat
  user_id : Nat
  trigger_config : Option (StrMap String) := none
  last_run : Option Nat := none
  next_run : Option Nat := none
  run_count : Nat := 0
  deriving Repr, DecidableEq

/-- Python dict lookup `d[k]` as an option. -/
def dictGet? {V : Type} (d : StrMap V) (k : String) : Option V :=
  (d.find? (fun p => p.1 == k)).map Prod.snd

/-- The rows the `queue_job` dedup query selects: entries for this
workflow id whose status is in `{pending, running}` (scheduler.py
lines 159-163). -/
def inFlightFor (wf : Nat) (job_queue : List JobQueueEntry) : List JobQueueEntry :=
  job_queue.filter (fun j =>
    j.workflow_id == wf && (j.status == QueueStatus.pending || j.status == QueueStatus.running))

namespace WorkflowScheduler

/-- `WorkflowScheduler.queue_job` (scheduler.py lines 155-190): if an entry
for this workflow with status pending/running already exists
(`scalar_one_or_none`; more than one such row raises), log and return
without touching anything; otherwise insert one `pending` entry with
`priority = 0` and update the owning `ScheduledJob`'s `last_run` and
`run_count`.  `new_id` stands for the database-assigned primary key and
`now` for `datetime.utcnow()`. -/
def queue_job (now : Nat) (new_id : Nat) (job_queue : List JobQueueEntry)
    (scheduled_job : ScheduledJobRow) :
    Except String (List JobQueueEntry × ScheduledJobRow) :=
  match inFlightFor scheduled_job.workflow_id job_queue with
  | [] =>
      .ok (job_queue ++
            [{ id := new_id
               workflow_id := scheduled_job.workflow_id
               user_id := scheduled_job.user_id
               status := .pending
               priority := 0
               scheduled_at := some now }],
           { scheduled_job with
               last_run := some now
               run_count := scheduled_job.run_count + 1 })
  | [_] => .ok (job_queue, scheduled_job)
  | _ :: _ :: _ => .error "MultipleResultsFound"

end WorkflowScheduler

/-- C5: enqueue is single-flight.  For every queue and scheduled job:
(a) when an entry with status in {pending, running} already exists for the
workflow, `queue_job` inserts nothing and leaves the `ScheduledJob`
unchanged; (b) when none exists, it inserts exactly one pending entry and
updates `last_run`/`run_count`; (c) whenever it succeeds from a state
satisfying the at-most-one invariant, exactly one in-flight entry remains,
and a second enqueue before that entry leaves {pending, running} is a
no-op — two calls in succession yield exactly one queue row. -/
theorem queue_job_single_flight (now1 now2 new_id1 new_id2 : Nat)
    (job_queue : List JobQueueEntry) (scheduled_job : ScheduledJobRow) :
    ((inFlightFor scheduled_job.workflow_id job_queue).length = 1 →
        WorkflowScheduler.queue_job now1 new_id1 job_queue scheduled_job
          = .ok (job_queue, scheduled_job))
    ∧ ((inFlightFor scheduled_job.workflow_id job_queue).length = 0 →
        WorkflowScheduler.queue_job now1 new_id1 job_queue scheduled_job
          = .ok (job_queue ++
              [{ id := new_id1
                 workflow_id := scheduled_job.workflow_id
                 user_id := scheduled_job.user_id
                 status := .pending
                 priority := 0
                 scheduled_at := some now1 }],
             { scheduled_job with
                 last_run := some now1
                 run_count := scheduled_job.run_count + 1 }))
    ∧ (∀ q2 sj2,
        (inFlightFor scheduled_job.workflow_id job_queue).length ≤ 1 →
        WorkflowScheduler.queue_job now1 new_id1 job_queue scheduled_job = .ok (q2, sj2) →
        (inFlightFor scheduled_job.workflow_id q2).length = 1
        ∧ sj2.workflow_id = scheduled_job.workflow_id
        ∧ WorkflowScheduler.queue_job now2 new_id2 q2 sj2 = .ok (q2, sj2)) := by
  refine ⟨?_, ?_, ?_⟩
  · intro h1
    unfold WorkflowScheduler.queue_job
    rcases hq : inFlightFor scheduled_job.workflow_id job_queue with _ | ⟨a, _ | ⟨b, t⟩⟩ <;>
      simp [hq] at h1 ⊢
  · intro h0
    unfold WorkflowScheduler.queue_job
    rcases hq : inFlightFor scheduled_job.workflow_id job_queue with _ | ⟨a, t⟩ <;>
      simp [hq] at h0 ⊢
  · intro q2 sj2 hinv hok
    unfold WorkflowScheduler.queue_job at hok
    rcases hq : inFlightFor scheduled_job.workflow_id job_queue with _ | ⟨a, _ | ⟨b, t⟩⟩ <;>
      rw [hq] at hok
    · simp only [Except.ok.injEq, Prod.mk.injEq] at hok
      obtain ⟨hq2, hsj2⟩ := hok
      have hq2flight : inFlightFor scheduled_job.workflow_id q2
          = [{ id := new_id1
               workflow_id := scheduled_job.workflow_id
               user_id := scheduled_job.user_id
               status := .pending
               priority := 0
               scheduled_at := some now1 }] := by
        rw [← hq2]
        unfold inFlightFor at hq ⊢
        rw [List.filter_append, hq]
        simp
      refine ⟨by rw [hq2flight]; rfl, by rw [← hsj2], ?_⟩
      unfold WorkflowScheduler.queue_job
      rw [show sj2.workflow_id = scheduled_job.workflow_id from by rw [← hsj2]]
      rw [hq2flight]
    · simp only [Except.ok.injEq, Prod.mk.injEq] at hok
      obtain ⟨hq2, hsj2⟩ := hok
      subst hq2
      subst hsj2
      refine ⟨by rw [hq]; rfl, rfl, ?_⟩
      unfold WorkflowScheduler.queue_job
      rw [hq]
    · simp at hok

/-- The outcome of one `WorkflowExecutor(...).execute()` call as seen by
`execute_queued_job`: either it returned an execution record (carrying its
status and error message), or it raised — `execute` re-raises any exception
after marking the execution failed, and a missing workflow also raises. -/
inductive ExecuteAttempt
  | finished (status : ExecStatus) (error_message : Option String)
  | raised (msg : String)
  deriving Repr, DecidableEq

/-- The `JobQueue` fields `execute_queued_job` reads and writes. -/
structure QueuedJobState where
  status : QueueStatus
  retry_count : Nat
  max_retries : Nat
  error_message : Option String := none
  deriving Repr, DecidableEq

/-- `WorkflowScheduler.execute_queued_job` (scheduler.py lines 192-249),
with the executor collaborator abstracted as `attempt n`, the outcome of
the `n`-th executor invocation, and `calls` counting those invocations.
The function returns immediately when the fetched job's status is not
`pending`; otherwise it marks it running, invokes the executor, and on a
raise marks the job failed, increments `retry_count`, and — when
`retry_count < max_retries` — sleeps and re-invokes itself recursively on
the same entry.  `fuel` bounds the recursion depth (the source relies on
the status guard to stop; any fuel larger than `max_retries + 1` is enough
to exhibit the source's behaviour). -/
def WorkflowScheduler.execute_queued_job (attempt : Nat → ExecuteAttempt) :
    Nat → QueuedJobState → Nat → QueuedJobState × Nat
  | 0, job, calls => (job, calls)
  | fuel + 1, job, calls =>
    if job.status ≠ QueueStatus.pending then (job, calls)
    else
      let job1 := { job with status := .running }
      match attempt calls with
      | .finished st err =>
          ({ job1 with
               status := if st == ExecStatus.completed then .completed else .failed
               error_message := match err with
                 | some e => some e
                 | none => job1.error_message },
           calls + 1)
      | .raised e =>
          let job2 := { job1 with
            status := .failed
            error_message := some e
            retry_count := job1.retry_count + 1 }
          if job2.retry_count < job2.max_retries then
            WorkflowScheduler.execute_queued_job attempt fuel job2 (calls + 1)
          else (job2, calls + 1)

/-- C4: the spec claims a job whose workflow execution fails on every
attempt is dispatched `max_retries + 1` times and ends with
`retry_count = max_retries`.  Evaluating the embedded
`execute_queued_job` on a fresh pending entry with `max_retries = 3` and
an always-raising executor shows the executor is invoked exactly once and
the entry ends failed with `retry_count = 1`: the recursive retry call is
stopped by the `status != 'pending'` guard, because the failure handler
has already committed `status = 'failed'`. -/
theorem always_failing_job_dispatched_once :
    WorkflowScheduler.execute_queued_job (fun _ => .raised "workflow failed") 10
        { status := .pending, retry_count := 0, max_retries := 3, error_message := none } 0
      = ({ status := .failed, retry_count := 1, max_retries := 3,
           error_message := some "workflow failed" }, 1) := by
  rfl

/-! ## Price trigger (`_check_price_trigger`, scheduler.py lines 101-134) -/

/-- `pat` is a prefix of `s`. -/
def listIsPrefixOf (pat s : List Char) : Bool :=
  match pat, s with
  | [], _ => true
  | _ :: _, [] => false
  | a :: ps, b :: ss => a == b && listIsPrefixOf ps ss

/-- Python `pat in s` on character lists: `pat` occurs as a contiguous
substring of `s`. -/
def listContainsSub (s pat : List Char) : Bool :=
  match s with
  | [] => pat.isEmpty
  | _ :: t => listIsPrefixOf pat s || listContainsSub t pat

/-- One fuel-indexed pass of Python `str.replace`: replace non-overlapping
occurrences of `pat` left to right.  The fuel (at least the length of the
remaining text) only makes the recursion structural. -/
def listReplaceFuel (pat rep : List Char) : Nat → List Char → List Char
  | _, [] => []
  | 0, s => s
  | fuel + 1, c :: t =>
    if listIsPrefixOf pat (c :: t) && !pat.isEmpty then
      rep ++ listReplaceFuel pat rep fuel (List.drop pat.length (c :: t))
    else
      c :: listReplaceFuel pat rep fuel t

/-- Python `s.replace(pat, rep)` for a non-empty pattern. -/
def pyReplace (s pat rep : String) : String :=
  String.mk (listReplaceFuel pat.toList rep.toList s.toList.length s.toList)

/-- The guard the source applies before handing the user-supplied condition
string to Python `eval` (scheduler.py lines 119-126): after replacing the
token `price` by the rendered current price, the string is evaluated
whenever ANY of the five comparison tokens occurs anywhere in it as a
substring. -/
def price_condition_reaches_eval (condition : String) (price_str : String) : Bool :=
  let condition_str := pyReplace condition "price" price_str
  [">", "<", ">=", "<=", "=="].any (fun op => listContainsSub condition_str.toList op.toList)

/-- The five comparison operators of the spec's bounded comparison. -/
inductive CmpOp
  | gt | lt | ge | le | eq
  deriving Repr, DecidableEq

/-- Modelled from the spec: the closed, parameterized comparator over
(operator, numeric threshold, current price) through which the spec
requires the price trigger to be evaluated. -/
def closedComparator (op : CmpOp) (threshold price : ℚ) : Bool :=
  match op with
  | .gt => decide (price > threshold)
  | .lt => decide (price < threshold)
  | .ge => decide (price ≥ threshold)
  | .le => decide (price ≤ threshold)
  | .eq => decide (price = threshold)

/-- A fragment of the Python boolean expressions that reach `eval` in the
source: comparisons of the substituted price against a literal, combined
with `or`. -/
inductive PriceCondExpr
  | cmp (op : CmpOp) (threshold : ℚ)
  | orElse (a b : PriceCondExpr)

/-- Python `eval` semantics on the fragment. -/
def evalPriceCond (price : ℚ) : PriceCondExpr → Bool
  | .cmp op threshold => closedComparator op threshold price
  | .orElse a b => evalPriceCond price a || evalPriceCond price b

/-- The expression of the condition string `"price > 4 or price < 2"`. -/
def demoPriceCondition : PriceCondExpr :=
  .orElse (.cmp .gt 4) (.cmp .lt 2)

/-- C6: the spec claims the price trigger's due/not-due result is computed
solely through a closed comparator over (price, operator, threshold) and
never by unrestricted evaluation of the condition string.  In the source
the condition string reaches Python `eval` whenever it merely CONTAINS a
comparison token: the condition `"price > 4 or price < 2"` passes the
guard, and its `eval` result (false at price 3, true at 1, true at 5)
cannot be produced by any single (operator, threshold) comparator, so the
trigger's result is not a function of one parsed operator and threshold. -/
theorem price_trigger_condition_not_closed :
    price_condition_reaches_eval "price > 4 or price < 2" "3" = true
    ∧ evalPriceCond 3 demoPriceCondition = false
    ∧ evalPriceCond 1 demoPriceCondition = true
    ∧ evalPriceCond 5 demoPriceCondition = true
    ∧ (∀ op : CmpOp, ∀ threshold : ℚ,
        ¬(closedComparator op threshold 1 = true
          ∧ closedComparator op threshold 5 = true
          ∧ closedComparator op threshold 3 = false)) := by
  refine ⟨by rfl, ?_, ?_, ?_, ?_⟩
  · norm_num [evalPriceCond, demoPriceCondition, closedComparator]
  · norm_num [evalPriceCond, demoPriceCondition, closedComparator]
  · norm_num [evalPriceCond, demoPriceCondition, closedComparator]
  · rintro op threshold ⟨h1, h2, h3⟩
    cases op <;> simp [closedComparator] at h1 h2 h3 <;> linarith

/-! ## Cron trigger (`_check_cron_trigger`, scheduler.py lines 80-99) -/

/-- A decimal digit. -/
def charDigit? (c : Char) : Option Nat :=
  if 48 ≤ c.toNat && c.toNat ≤ 57 then some (c.toNat - 48) else none

/-- Decimal parse of a cron field. -/
def parseNat? (s : String) : Option Nat :=
  match s.toList with
  | [] => none
  | cs => cs.foldl (fun acc c =>
      match acc, charDigit? c with
      | some n, some d => some (n * 10 + d)
      | _, _ => none) (some 0)

/-- A daily cron schedule: fire at `hour:minute` every day. -/
structure CronDaily where
  minute : Nat
  hour : Nat
  deriving Repr, DecidableEq

/-- Split a character list on a separator (as `str.split`, keeping empty
fields). -/
def splitOnChar (sep : Char) : List Char → List (List Char)
  | [] => [[]]
  | c :: t =>
    match splitOnChar sep t with
    | [] => if c == sep then [[], []] else [[c]]
    | g :: gs => if c == sep then [] :: g :: gs else (c :: g) :: gs

/-- Modelled from the spec: the external `croniter` dependency's parser
under standard cron semantics, restricted to the daily five-field
expressions `"M H * * *"` (the subset the spec's scenario exercises).
`none` stands for `croniter(...)` raising on an expression outside the
modelled subset. -/
def croniter_parse (s : String) : Option CronDaily :=
  match (splitOnChar ' ' s.toList).map String.mk with
  | [m, h, "*", "*", "*"] =>
      match parseNat? m, parseNat? h with
      | some mv, some hv => if mv < 60 && hv < 24 then some ⟨mv, hv⟩ else none
      | _, _ => none
  | _ => none

/-- Second of the day at which a daily schedule fires. -/
def CronDaily.offset (c : CronDaily) : Nat := c.hour * 3600 + c.minute * 60

/-- Modelled from the spec: `croniter(expr, base).get_next(datetime)` under
standard cron semantics — the first firing time strictly after `base`.
Times are seconds since an epoch midnight. -/
def croniter_get_next (c : CronDaily) (base : Nat) : Nat :=
  if base % 86400 < c.offset then base - base % 86400 + c.offset
  else base - base % 86400 + 86400 + c.offset

theorem croniter_parse_bounds (s : String) (c : CronDaily)
    (hp : croniter_parse s = some c) : c.minute < 60 ∧ c.hour < 24 := by
  unfold croniter_parse at hp
  split at hp
  · split at hp
    · split at hp
      · rename_i hcond
        injection hp with h2
        subst h2
        simpa using hcond
      · exact absurd hp (by simp)
    · exact absurd hp (by simp)
  · exact absurd hp (by simp)

theorem croniter_get_next_gt (c : CronDaily) (base : Nat)
    (hb : c.offset < 86400) : base < croniter_get_next c base := by
  unfold croniter_get_next
  have h2 := Nat.mod_le base 86400
  split <;> omega

theorem croniter_get_next_fires (c : CronDaily) (base : Nat)
    (hb : c.offset < 86400) : (croniter_get_next c base) % 86400 = c.offset := by
  unfold croniter_get_next
  have h2 := Nat.mod_le base 86400
  split <;> omega

theorem croniter_get_next_least (c : CronDaily) (base t : Nat)
    (hb : c.offset < 86400) (ht : base < t) (hf : t % 86400 = c.offset) :
    croniter_get_next c base ≤ t := by
  unfold croniter_get_next
  have h2 := Nat.mod_le base 86400
  split <;> omega

namespace WorkflowScheduler

/-- `WorkflowScheduler._check_cron_trigger` (scheduler.py lines 80-99):
returns not-due when the config is missing/empty or has no
`cron_expression` key; otherwise computes
`next_run = croniter(expr, last_run or now).get_next()`, stores it on the
job, and reports due iff `now >= next_run`.  When croniter raises on an
invalid expression the handler logs and returns not-due, touching
nothing. -/
def check_cron_trigger (now : Nat) (job : ScheduledJobRow) : Bool × ScheduledJobRow :=
  match job.trigger_config with
  | none => (false, job)
  | some cfg =>
    if cfg.isEmpty then (false, job)
    else
      match dictGet? cfg "cron_expression" with
      | none => (false, job)
      | some cron_expr =>
        match croniter_parse cron_expr with
        | none => (false, job)
        | some cron =>
          let next_run := croniter_get_next cron ((job.last_run).getD now)
          (decide (now ≥ next_run), { job with next_run := some next_run })

end WorkflowScheduler

/-- A scheduled job with `cron_expression = "0 9 * * *"` and `last_run` =
yesterday 09:00:00 (second 32400 of epoch day 0); today 09:00:01 is second
118801 and today 08:59:59 is second 118799. -/
def dailyNineJob : ScheduledJobRow :=
  { workflow_id := 7, user_id := 1
    trigger_config := some [("cron_expression", "0 9 * * *")]
    last_run := some 32400 }

/-- C9: for every cron job whose expression parses, the trigger computes
`next_run` as the first cron firing time strictly after `last_run` (or
after `now` when the job never ran) and reports due iff `now ≥ next_run`;
for an invalid expression it reports not-due and leaves the job untouched.
Concretely, with `"0 9 * * *"` and `last_run` = yesterday 09:00, the
trigger is due at today 09:00:01 and not due at today 08:59:59. -/
theorem cron_trigger_correct (now : Nat) (job : ScheduledJobRow) :
    (∀ cfg expr c, job.trigger_config = some cfg →
        dictGet? cfg "cron_expression" = some expr →
        croniter_parse expr = some c →
        WorkflowScheduler.check_cron_trigger now job
          = (decide (now ≥ croniter_get_next c (job.last_run.getD now)),
             { job with next_run := some (croniter_get_next c (job.last_run.getD now)) })
        ∧ job.last_run.getD now < croniter_get_next c (job.last_run.getD now)
        ∧ (croniter_get_next c (job.last_run.getD now)) % 86400 = c.offset
        ∧ (∀ t, job.last_run.getD now < t → t % 86400 = c.offset →
            croniter_get_next c (job.last_run.getD now) ≤ t))
    ∧ (∀ cfg expr, job.trigger_config = some cfg →
        dictGet? cfg "cron_expression" = some expr →
        croniter_parse expr = none →
        WorkflowScheduler.check_cron_trigger now job = (false, job))
    ∧ (WorkflowScheduler.check_cron_trigger 118801 dailyNineJob).1 = true
    ∧ (WorkflowScheduler.check_cron_trigger 118799 dailyNineJob).1 = false := by
  refine ⟨?_, ?_, by rfl, by rfl⟩
  · intro cfg expr c h1 h2 h3
    have hne : cfg.isEmpty = false := by
      cases cfg with
      | nil => simp [dictGet?] at h2
      | cons a t => rfl
    have hb : c.offset < 86400 := by
      obtain ⟨hm, hh⟩ := croniter_parse_bounds expr c h3
      unfold CronDaily.offset
      omega
    refine ⟨?_, croniter_get_next_gt c _ hb, croniter_get_next_fires c _ hb,
      fun t ht hf => croniter_get_next_least c _ t hb ht hf⟩
    unfold WorkflowScheduler.check_cron_trigger
    rw [h1]
    simp only [hne, Bool.false_eq_true, if_false, h2, h3]
  · intro cfg expr h1 h2 h3
    have hne : cfg.isEmpty = false := by
      cases cfg with
      | nil => simp [dictGet?] at h2
      | cons a t => rfl
    unfold WorkflowScheduler.check_cron_trigger
    rw [h1]
    simp only [hne, Bool.false_eq_true, if_false, h2, h3]

end AgenticEngine
